import Mathlib

/-!
Verification of the core of `src/proteus/genome.py`: the one-hot DNA sequence
codec (`_sequence_to_encoding` / `_encoding_to_sequence`) and the
coordinate-validated sequence fetch (`_get_sequence_from_coords`, the
`Genome` methods around it).

Modelling conventions:
* Python strings of nucleotides are `List Char`; chromosome names are `String`.
* The numpy `N x 4` encoding array is a `List (List ℚ)` (one inner list per row).
* Python `dict` lookup (`BASES_DICT`) is an association list with `List.lookup`.
* Python exceptions (`KeyError` on the `len_chrs[chrom]` lookup, the
  `ValueError` raised for a bad strand) become an `Except FetchError` result.
* The external `pyfaidx.Fasta` collaborator is an abstract function
  `fetch : String → Int → Int → List Char` giving the forward-strand substring
  `self.genome[chrom][start:end].seq`; its reverse-complement capability
  (`.reverse.complement.seq`) is modelled from the spec as
  `reverseComplement ∘ fetch`.
-/

set_option maxHeartbeats 1000000

namespace Proteus

/-- `Genome.BASES_ARR = np.array(['A', 'C', 'G', 'T'])`. -/
def BASES_ARR : List Char := ['A', 'C', 'G', 'T']

/-- `Genome.BASES_DICT = dict([(base, index) for index, base in enumerate(BASES_ARR)])`,
modelled as the association list `[('A',0), ('C',1), ('G',2), ('T',3)]`. -/
def BASES_DICT : List (Char × Nat) :=
  BASES_ARR.enum.map (fun p => (p.2, p.1))

/-- A freshly zeroed numpy row of width 4 whose entry `k` is set to `1`
(`encoding[index, bases_encoding[base]] = 1` acting on a row of `np.zeros`). -/
def oneHotRow (k : Nat) : List ℚ :=
  (List.range 4).map (fun j => if j = k then 1 else 0)

/-- Loop body of `_sequence_to_encoding`: for one (already uppercased) base,
`if base in bases_encoding: row[bases_encoding[base]] = 1 else: row[:] = 0.25`. -/
def encodeBaseRow (bases_encoding : List (Char × Nat)) (base : Char) : List ℚ :=
  match bases_encoding.lookup base with
  | some k => oneHotRow k
  | none => List.replicate 4 ((1 : ℚ) / 4)

/-- `_sequence_to_encoding(sequence, bases_encoding)` from `genome.py`:
uppercase the sequence, then build one row per character.  This per-character
model of `str.upper` is exact whenever uppercasing preserves the string's
length (in particular on ASCII input); `pySequenceToEncoding` below keeps the
pre-sized array of the source and so also covers Python's length-changing
full case mapping. -/
def sequence_to_encoding (sequence : List Char) (bases_encoding : List (Char × Nat)) :
    List (List ℚ) :=
  (sequence.map Char.toUpper).map (encodeBaseRow bases_encoding)

/-- Loop body of `_encoding_to_sequence`: `base_pos = np.where(row == 1)[0]`;
if `len(base_pos) != 1` append `'N'`, else append `bases_arr[base_pos[0]]`.
A `base_pos[0]` outside `bases_arr` would raise `IndexError` in Python; the
model returns the placeholder `'?'` there (never reached on 4-column rows). -/
def decodeRow (bases_arr : List Char) (row : List ℚ) : Char :=
  let base_pos := (List.range row.length).filter (fun j => decide (row.getD j 0 = 1))
  if base_pos.length ≠ 1 then 'N'
  else bases_arr.getD (base_pos.headD 0) '?'

/-- `_encoding_to_sequence(encoding, bases_arr)` from `genome.py`. -/
def encoding_to_sequence (encoding : List (List ℚ)) (bases_arr : List Char) :
    List Char :=
  encoding.map (decodeRow bases_arr)

/-- The two failure modes of `_get_sequence_from_coords`: the `KeyError`
raised by `len_chrs[chrom]` for an unknown chromosome, and the `ValueError`
("Strand must be one of '+' or '-'. Input was {0}") carrying the offending
strand. -/
inductive FetchError where
  | keyError (chrom : String)
  | invalidStrand (strand : String)

/-- `_get_sequence_from_coords(len_chrs, genome_sequence, chrom, start, end, strand)`
from `genome.py`: look up the chromosome length (a `KeyError` escapes for an
unknown name), return `""` when `start > len_chrs[chrom] or end > len_chrs[chrom]
or start < 0`, otherwise dispatch on the strand, raising `ValueError` for a
strand other than `'+'` or `'-'`. -/
def get_sequence_from_coords (len_chrs : String → Option Nat)
    (genome_sequence : String → Int → Int → String → List Char)
    (chrom : String) (start stop : Int) (strand : String) :
    Except FetchError (List Char) :=
  match len_chrs chrom with
  | none => .error (.keyError chrom)
  | some len =>
      if start > (len : Int) ∨ stop > (len : Int) ∨ start < 0 then
        .ok []
      else if strand = "+" then
        .ok (genome_sequence chrom start stop strand)
      else if strand = "-" then
        .ok (genome_sequence chrom start stop strand)
      else
        .error (.invalidStrand strand)

/-- Modelled from the spec: the base pairing used by the external
collaborator's reverse-complement capability (A↔T, C↔G, other symbols
unchanged). -/
def complementBase (c : Char) : Char :=
  if c = 'A' then 'T'
  else if c = 'T' then 'A'
  else if c = 'C' then 'G'
  else if c = 'G' then 'C'
  else c

/-- Modelled from the spec: reverse complement — substitute each base with its
partner symbol-wise, then reverse the sequence order. -/
def reverseComplement (s : List Char) : List Char :=
  (s.map complementBase).reverse

/-- `Genome._genome_sequence(chrom, start, end, strand)`: the forward strand
returns `self.genome[chrom][start:end].seq` (the abstract `fetch`), any other
strand returns `self.genome[chrom][start:end].reverse.complement.seq`. -/
def Genome_genome_sequence (fetch : String → Int → Int → List Char)
    (chrom : String) (start stop : Int) (strand : String) : List Char :=
  if strand = "+" then fetch chrom start stop
  else reverseComplement (fetch chrom start stop)

/-- `Genome.get_sequence_from_coords`: delegates to the module-level
`_get_sequence_from_coords` with `self.len_chrs` and `self._genome_sequence`. -/
def Genome_get_sequence_from_coords (len_chrs : String → Option Nat)
    (fetch : String → Int → Int → List Char)
    (chrom : String) (start stop : Int) (strand : String) :
    Except FetchError (List Char) :=
  get_sequence_from_coords len_chrs (Genome_genome_sequence fetch)
    chrom start stop strand

/-- `Genome.get_encoding_from_coords`: fetch the sequence, then one-hot encode
it with `BASES_DICT`; any exception from the fetch propagates. -/
def Genome_get_encoding_from_coords (len_chrs : String → Option Nat)
    (fetch : String → Int → Int → List Char)
    (chrom : String) (start stop : Int) (strand : String) :
    Except FetchError (List (List ℚ)) :=
  (Genome_get_sequence_from_coords len_chrs fetch chrom start stop strand).map
    (fun sequence => sequence_to_encoding sequence BASES_DICT)

/-- The eight characters the round-trip claim ranges over: {A,C,G,T} in either
case. -/
def canonicalBases : List Char := ['A', 'C', 'G', 'T', 'a', 'c', 'g', 't']

/-- The forward strand token `'+'`. -/
def forwardStrand : String := "+"

/-- The reverse strand token `'-'`. -/
def reverseStrand : String := "-"

/-- Spec-side row encoding, following the spec's words: an uppercased
character that is one of {A,C,G,T} gets the one-hot row with the 1 at that
base's index (A=0, C=1, G=2, T=3); any other character gets 0.25 in all four
positions. -/
def specEncodeRow (c : Char) : List ℚ :=
  if c = 'A' then [1, 0, 0, 0]
  else if c = 'C' then [0, 1, 0, 0]
  else if c = 'G' then [0, 0, 1, 0]
  else if c = 'T' then [0, 0, 0, 1]
  else [1/4, 1/4, 1/4, 1/4]

/-- Spec-side row decoding, following the spec's words: among the 4 columns,
if exactly one holds the value 1, emit the alphabet symbol at that column's
index, otherwise emit `'N'`. -/
def specDecodeRow (row : List ℚ) : Char :=
  let ones := (List.range 4).filter (fun j => decide (row.getD j 0 = 1))
  if ones.length = 1 then BASES_ARR.getD (ones.headD 0) 'N'
  else 'N'

/-- Modelled from Python semantics of `str.upper`: full case mapping may
lengthen the string.  The table covers the characters this development uses:
each ASCII character uppercases to its single `Char.toUpper` form, and U+00DF
('ß') uppercases to the two characters "SS". -/
def pyUpperChar (c : Char) : List Char :=
  if c = 'ß' then ['S', 'S'] else [c.toUpper]

/-- Python's `str.upper` over the modelled characters. -/
def pyUpper (s : List Char) : List Char := s.flatMap pyUpperChar

/-- `_sequence_to_encoding` without the length-preserving simplification:
`np.zeros((len(sequence), 4))` is sized by the ORIGINAL string, while the
loop enumerates the UPPERCASED string (an arbitrary uppercasing map `upper`).
A loop index at or past the original length raises `IndexError` (`none`);
rows the loop never reaches keep their zeros. -/
def pySequenceToEncoding (upper : List Char → List Char) (sequence : List Char)
    (bases_encoding : List (Char × Nat)) : Option (List (List ℚ)) :=
  let up := upper sequence
  if sequence.length < up.length then none
  else
    some (up.map (encodeBaseRow bases_encoding) ++
      List.replicate (sequence.length - up.length) (List.replicate 4 (0 : ℚ)))

/-! Concrete instances used by the witnesses: a one-chromosome length table
and a trivial fetcher. -/

/-- A sample chromosome name. -/
def chr1 : String := "chr1"

/-- A chromosome name absent from the sample length table. -/
def chrX : String := "chrX"

/-- An invalid strand token. -/
def sidewaysStrand : String := "sideways"

/-- A sample length table: `chr1` has length 10, nothing else is known. -/
def sampleLenChrs : String → Option Nat :=
  fun c => if c = chr1 then some 10 else none

/-- A sample raw fetcher that always produces the single base `A`. -/
def sampleFetch : String → Int → Int → List Char :=
  fun _ _ _ => ['A']

/-- A sample `genome_sequence` argument for the module-level function. -/
def sampleGenomeSequence : String → Int → Int → String → List Char :=
  fun _ _ _ _ => ['G']

/-! Helper evaluation lemmas. -/

/-- `BASES_DICT` written out. -/
lemma BASES_DICT_eq :
    BASES_DICT = [('A', 0), ('C', 1), ('G', 2), ('T', 3)] := by decide

lemma lookup_A : BASES_DICT.lookup 'A' = some 0 := by decide

lemma lookup_C : BASES_DICT.lookup 'C' = some 1 := by decide

lemma lookup_G : BASES_DICT.lookup 'G' = some 2 := by decide

lemma lookup_T : BASES_DICT.lookup 'T' = some 3 := by decide

/-- A character other than A, C, G, T is not a key of `BASES_DICT`. -/
lemma lookup_none (c : Char) (hA : c ≠ 'A') (hC : c ≠ 'C') (hG : c ≠ 'G')
    (hT : c ≠ 'T') : BASES_DICT.lookup c = none := by
  have eA : (c == 'A') = false := by simp [hA]
  have eC : (c == 'C') = false := by simp [hC]
  have eG : (c == 'G') = false := by simp [hG]
  have eT : (c == 'T') = false := by simp [hT]
  rw [BASES_DICT_eq]
  simp [List.lookup, eA, eC, eG, eT]

/-- The loop body of the encoder agrees with the spec-side row encoder on
every character. -/
lemma encodeBaseRow_eq_spec (c : Char) :
    encodeBaseRow BASES_DICT c = specEncodeRow c := by
  by_cases hA : c = 'A'
  · subst hA
    simp [encodeBaseRow, lookup_A, specEncodeRow, oneHotRow, List.range_succ]
  by_cases hC : c = 'C'
  · subst hC
    simp [encodeBaseRow, lookup_C, specEncodeRow, oneHotRow, List.range_succ]
  by_cases hG : c = 'G'
  · subst hG
    simp [encodeBaseRow, lookup_G, specEncodeRow, oneHotRow, List.range_succ]
  by_cases hT : c = 'T'
  · subst hT
    simp [encodeBaseRow, lookup_T, specEncodeRow, oneHotRow, List.range_succ]
  · simp [encodeBaseRow, lookup_none c hA hC hG hT, specEncodeRow,
      hA, hC, hG, hT, List.replicate]

lemma decode_oneHot_0 : decodeRow BASES_ARR (oneHotRow 0) = 'A' := by
  norm_num [decodeRow, oneHotRow, BASES_ARR, List.range_succ, List.filter,
    List.getD]

lemma decode_oneHot_1 : decodeRow BASES_ARR (oneHotRow 1) = 'C' := by
  norm_num [decodeRow, oneHotRow, BASES_ARR, List.range_succ, List.filter,
    List.getD]

lemma decode_oneHot_2 : decodeRow BASES_ARR (oneHotRow 2) = 'G' := by
  norm_num [decodeRow, oneHotRow, BASES_ARR, List.range_succ, List.filter,
    List.getD]

lemma decode_oneHot_3 : decodeRow BASES_ARR (oneHotRow 3) = 'T' := by
  norm_num [decodeRow, oneHotRow, BASES_ARR, List.range_succ, List.filter,
    List.getD]

/-- Encoding then decoding one canonical-base character reproduces its
uppercase form. -/
lemma decode_encode_char (c : Char) (h : c ∈ canonicalBases) :
    decodeRow BASES_ARR (encodeBaseRow BASES_DICT c.toUpper) = c.toUpper := by
  have eA : ('a').toUpper = 'A' := by decide
  have eC : ('c').toUpper = 'C' := by decide
  have eG : ('g').toUpper = 'G' := by decide
  have eT : ('t').toUpper = 'T' := by decide
  have uA : ('A').toUpper = 'A' := by decide
  have uC : ('C').toUpper = 'C' := by decide
  have uG : ('G').toUpper = 'G' := by decide
  have uT : ('T').toUpper = 'T' := by decide
  have encA : encodeBaseRow BASES_DICT 'A' = oneHotRow 0 := by
    simp [encodeBaseRow, lookup_A]
  have encC : encodeBaseRow BASES_DICT 'C' = oneHotRow 1 := by
    simp [encodeBaseRow, lookup_C]
  have encG : encodeBaseRow BASES_DICT 'G' = oneHotRow 2 := by
    simp [encodeBaseRow, lookup_G]
  have encT : encodeBaseRow BASES_DICT 'T' = oneHotRow 3 := by
    simp [encodeBaseRow, lookup_T]
  fin_cases h
  · rw [uA, encA]; exact decode_oneHot_0
  · rw [uC, encC]; exact decode_oneHot_1
  · rw [uG, encG]; exact decode_oneHot_2
  · rw [uT, encT]; exact decode_oneHot_3
  · rw [eA, encA]; exact decode_oneHot_0
  · rw [eC, encC]; exact decode_oneHot_1
  · rw [eG, encG]; exact decode_oneHot_2
  · rw [eT, encT]; exact decode_oneHot_3

/-- On a 4-column row, the decoder's loop body agrees with the spec-side row
decoder. -/
lemma decodeRow_eq_spec (row : List ℚ) (h4 : row.length = 4) :
    decodeRow BASES_ARR row = specDecodeRow row := by
  simp only [decodeRow, specDecodeRow, h4]
  by_cases h1 :
      ((List.range 4).filter (fun j => decide (row.getD j 0 = 1))).length = 1
  · rw [if_neg (not_not.mpr h1), if_pos h1]
    obtain ⟨j, hj⟩ := List.length_eq_one.mp h1
    have hjm : j ∈ (List.range 4).filter (fun j => decide (row.getD j 0 = 1)) := by
      rw [hj]; exact List.mem_singleton_self j
    have hj4 : j < 4 := List.mem_range.mp (List.mem_filter.mp hjm).1
    rw [hj, List.headD_cons]
    interval_cases j <;> rfl
  · rw [if_pos h1, if_neg h1]

/-- C1. For every string over {A,C,G,T} in any case, decoding the encoding
returns the string with every character uppercased:
`decode(encode(s)) == uppercase(s)`. -/
theorem roundtrip_decode_encode (s : List Char)
    (h : ∀ c ∈ s, c ∈ canonicalBases) :
    encoding_to_sequence (sequence_to_encoding s BASES_DICT) BASES_ARR =
      s.map Char.toUpper := by
  induction s with
  | nil => rfl
  | cons c cs ih =>
      have hc : decodeRow BASES_ARR (encodeBaseRow BASES_DICT c.toUpper) =
          c.toUpper :=
        decode_encode_char c (h c (List.mem_cons_self c cs))
      have ihh := ih (fun x hx => h x (List.mem_cons_of_mem c hx))
      simp only [sequence_to_encoding, encoding_to_sequence, List.map_cons]
        at ihh ⊢
      rw [hc, ihh]

/-- C1 witness: the round trip on the concrete mixed-case sequence `aCgT`. -/
theorem roundtrip_decode_encode_witness :
    (∀ c ∈ ['a', 'C', 'g', 'T'], c ∈ canonicalBases) ∧
    encoding_to_sequence (sequence_to_encoding ['a', 'C', 'g', 'T'] BASES_DICT)
        BASES_ARR =
      ['a', 'C', 'g', 'T'].map Char.toUpper :=
  ⟨by decide, roundtrip_decode_encode ['a', 'C', 'g', 'T'] (by decide)⟩

/-- C2 counterexample: on the one-character string `"ß"` Python's upper gives
`"SS"`, the loop overruns the 1-row pre-sized array, and `encode` raises
`IndexError` instead of returning a 1×4 array — so `encode` does not succeed
on every input string. -/
theorem encode_fails_on_sharp_s :
    pySequenceToEncoding pyUpper ['ß'] BASES_DICT = none := by rfl

/-- C2 amended. For every input string whose uppercasing preserves its length
— in particular every ASCII string — `encode` succeeds with one row per
(uppercased) character: the one-hot vector for A, C, G, T (A=0, C=1, G=2,
T=3) and the all-0.25 row otherwise; `encode("")` yields the 0×4 array; and
on such input the faithful encoder agrees with the per-character model
`sequence_to_encoding`. -/
theorem encode_shape_and_rows_amended (upper : List Char → List Char)
    (s : List Char) (hlen : (upper s).length = s.length) :
    pySequenceToEncoding upper s BASES_DICT =
      some ((upper s).map specEncodeRow) ∧
    ((upper s).map specEncodeRow).length = s.length ∧
    pySequenceToEncoding pyUpper [] BASES_DICT = some [] ∧
    pySequenceToEncoding (fun t => t.map Char.toUpper) s BASES_DICT =
      some (sequence_to_encoding s BASES_DICT) := by
  refine ⟨?_, by simp [hlen], by rfl, ?_⟩
  · simp only [pySequenceToEncoding]
    rw [if_neg (by omega)]
    have h0 : s.length - (upper s).length = 0 := by omega
    rw [h0]
    simp only [List.replicate, List.append_nil]
    exact congrArg some (List.map_congr_left (fun c _ => encodeBaseRow_eq_spec c))
  · simp only [pySequenceToEncoding, List.length_map]
    rw [if_neg (by omega)]
    have h0 : s.length - s.length = 0 := Nat.sub_self s.length
    rw [h0]
    simp only [List.replicate, List.append_nil]
    rfl

/-- C2 amended witness: the ASCII string `"an"`, uppercased per character. -/
theorem encode_shape_and_rows_amended_witness :
    ((['a', 'n'].map Char.toUpper).length = (['a', 'n'] : List Char).length) ∧
    (pySequenceToEncoding (fun t => t.map Char.toUpper) ['a', 'n'] BASES_DICT =
        some ((['a', 'n'].map Char.toUpper).map specEncodeRow) ∧
      ((['a', 'n'].map Char.toUpper).map specEncodeRow).length =
        (['a', 'n'] : List Char).length ∧
      pySequenceToEncoding pyUpper [] BASES_DICT = some [] ∧
      pySequenceToEncoding (fun t => t.map Char.toUpper) ['a', 'n'] BASES_DICT =
        some (sequence_to_encoding ['a', 'n'] BASES_DICT)) :=
  ⟨by decide,
    encode_shape_and_rows_amended (fun t => t.map Char.toUpper) ['a', 'n']
      (by decide)⟩

/-- C3. For every encoding whose rows have the 4 columns of the data model,
`decode` returns one character per row: the alphabet symbol at the unique
column holding 1 when there is exactly one such column, and `'N'` otherwise. -/
theorem decode_shape_and_rows (encoding : List (List ℚ))
    (h4 : ∀ row ∈ encoding, row.length = 4) :
    (encoding_to_sequence encoding BASES_ARR).length = encoding.length ∧
    encoding_to_sequence encoding BASES_ARR = encoding.map specDecodeRow := by
  refine ⟨by simp [encoding_to_sequence], ?_⟩
  exact List.map_congr_left (fun row hrow => decodeRow_eq_spec row (h4 row hrow))

/-- C3 witness: a one-hot row, an all-0.25 row and a malformed two-ones row
decode to 'C', 'N', 'N'. -/
theorem decode_shape_and_rows_witness :
    (∀ row ∈ [[(0 : ℚ), 1, 0, 0], [1/4, 1/4, 1/4, 1/4], [1, 1, 0, 0]],
      row.length = 4) ∧
    ((encoding_to_sequence
          [[(0 : ℚ), 1, 0, 0], [1/4, 1/4, 1/4, 1/4], [1, 1, 0, 0]]
          BASES_ARR).length =
        ([[(0 : ℚ), 1, 0, 0], [1/4, 1/4, 1/4, 1/4], [1, 1, 0, 0]] :
          List (List ℚ)).length ∧
      encoding_to_sequence
          [[(0 : ℚ), 1, 0, 0], [1/4, 1/4, 1/4, 1/4], [1, 1, 0, 0]] BASES_ARR =
        ([[(0 : ℚ), 1, 0, 0], [1/4, 1/4, 1/4, 1/4], [1, 1, 0, 0]] :
          List (List ℚ)).map specDecodeRow) :=
  ⟨by decide,
    decode_shape_and_rows
      [[(0 : ℚ), 1, 0, 0], [1/4, 1/4, 1/4, 1/4], [1, 1, 0, 0]] (by decide)⟩

/-- C10. Every row of an encoding produced by `encode` sums to exactly 1: a
one-hot row contributes a single 1, an unknown character contributes four
quarters. -/
theorem encode_row_sum_one (s : List Char) (row : List ℚ)
    (h : row ∈ sequence_to_encoding s BASES_DICT) : row.sum = 1 := by
  simp only [sequence_to_encoding, List.mem_map] at h
  obtain ⟨c, _, rfl⟩ := h
  rw [encodeBaseRow_eq_spec]
  unfold specEncodeRow
  split_ifs <;> norm_num

/-- C10 witness: the row encoding `G` sums to 1. -/
theorem encode_row_sum_one_witness :
    oneHotRow 2 ∈ sequence_to_encoding ['G'] BASES_DICT ∧
    (oneHotRow 2).sum = 1 :=
  ⟨by simp [sequence_to_encoding, encodeBaseRow, lookup_G],
    encode_row_sum_one ['G'] (oneHotRow 2)
      (by simp [sequence_to_encoding, encodeBaseRow, lookup_G])⟩

/-- For a chromosome present in the length table, `_get_sequence_from_coords`
is the bounds check followed by the strand dispatch. -/
lemma gsfc_known (len_chrs : String → Option Nat)
    (gs : String → Int → Int → String → List Char)
    (chrom : String) (L : Nat) (h : len_chrs chrom = some L)
    (start stop : Int) (strand : String) :
    get_sequence_from_coords len_chrs gs chrom start stop strand =
      if start > (L : Int) ∨ stop > (L : Int) ∨ start < 0 then .ok []
      else if strand = "+" then .ok (gs chrom start stop strand)
      else if strand = "-" then .ok (gs chrom start stop strand)
      else .error (.invalidStrand strand) := by
  unfold get_sequence_from_coords
  rw [h]

/-- C4. For a known chromosome of length `L`, the fetch soft-fails to the
empty string exactly under `start > L or end > L or start < 0`; outside that
condition it never gives the bounds-check empty string but dispatches on the
strand, so `end < 0` is not rejected; in particular the interval `(L, L+1)`
and a negative `start` both give `""`. -/
theorem get_sequence_bounds (len_chrs : String → Option Nat)
    (gs : String → Int → Int → String → List Char)
    (chrom : String) (L : Nat) (h : len_chrs chrom = some L)
    (start stop : Int) (strand : String) :
    (start > (L : Int) ∨ stop > (L : Int) ∨ start < 0 →
      get_sequence_from_coords len_chrs gs chrom start stop strand = .ok []) ∧
    (¬(start > (L : Int) ∨ stop > (L : Int) ∨ start < 0) →
      get_sequence_from_coords len_chrs gs chrom start stop strand =
        if strand = forwardStrand ∨ strand = reverseStrand then
          .ok (gs chrom start stop strand)
        else .error (.invalidStrand strand)) ∧
    get_sequence_from_coords len_chrs gs chrom (L : Int) ((L : Int) + 1)
        strand = .ok [] ∧
    get_sequence_from_coords len_chrs gs chrom (-1) 5 strand = .ok [] ∧
    (0 ≤ start → start ≤ (L : Int) →
      get_sequence_from_coords len_chrs gs chrom start (-1) forwardStrand =
        .ok (gs chrom start (-1) forwardStrand)) := by
  refine ⟨?_, ?_, ?_, ?_, ?_⟩
  · intro hc
    rw [gsfc_known len_chrs gs chrom L h, if_pos hc]
  · intro hc
    rw [gsfc_known len_chrs gs chrom L h, if_neg hc]
    simp only [forwardStrand, reverseStrand]
    by_cases hp : strand = "+"
    · rw [if_pos hp, if_pos (Or.inl hp)]
    · rw [if_neg hp]
      by_cases hm : strand = "-"
      · rw [if_pos hm, if_pos (Or.inr hm)]
      · rw [if_neg hm, if_neg (not_or.mpr ⟨hp, hm⟩)]
  · rw [gsfc_known len_chrs gs chrom L h, if_pos (by omega)]
  · rw [gsfc_known len_chrs gs chrom L h, if_pos (by omega)]
  · intro h0 hL
    rw [gsfc_known len_chrs gs chrom L h, if_neg (by omega),
      if_pos (show forwardStrand = "+" from rfl)]

/-- C4 witness: the table with `chr1` of length 10, at `start = 0`,
`end = 5`, forward strand. -/
theorem get_sequence_bounds_witness :
    sampleLenChrs chr1 = some 10 ∧
    (((0 : Int) > (10 : Nat) ∨ (5 : Int) > (10 : Nat) ∨ (0 : Int) < 0 →
      get_sequence_from_coords sampleLenChrs sampleGenomeSequence chr1 0 5
        forwardStrand = .ok []) ∧
    (¬((0 : Int) > (10 : Nat) ∨ (5 : Int) > (10 : Nat) ∨ (0 : Int) < 0) →
      get_sequence_from_coords sampleLenChrs sampleGenomeSequence chr1 0 5
          forwardStrand =
        if forwardStrand = forwardStrand ∨ forwardStrand = reverseStrand then
          .ok (sampleGenomeSequence chr1 0 5 forwardStrand)
        else .error (.invalidStrand forwardStrand)) ∧
    get_sequence_from_coords sampleLenChrs sampleGenomeSequence chr1
        ((10 : Nat) : Int) (((10 : Nat) : Int) + 1) forwardStrand = .ok [] ∧
    get_sequence_from_coords sampleLenChrs sampleGenomeSequence chr1 (-1) 5
        forwardStrand = .ok [] ∧
    ((0 : Int) ≤ 0 → (0 : Int) ≤ (10 : Nat) →
      get_sequence_from_coords sampleLenChrs sampleGenomeSequence chr1 0 (-1)
          forwardStrand =
        .ok (sampleGenomeSequence chr1 0 (-1) forwardStrand))) :=
  ⟨by decide,
    get_sequence_bounds sampleLenChrs sampleGenomeSequence chr1 10 (by decide)
      0 5 forwardStrand⟩

/-- C5. For a known chromosome and an interval passing the bounds check, a
strand token that is neither `'+'` nor `'-'` raises the invalid-strand error
carrying the offending value. -/
theorem invalid_strand_raises (len_chrs : String → Option Nat)
    (gs : String → Int → Int → String → List Char)
    (chrom : String) (L : Nat) (h : len_chrs chrom = some L)
    (start stop : Int)
    (hb : ¬(start > (L : Int) ∨ stop > (L : Int) ∨ start < 0))
    (strand : String) (hp : strand ≠ forwardStrand)
    (hm : strand ≠ reverseStrand) :
    get_sequence_from_coords len_chrs gs chrom start stop strand =
      .error (.invalidStrand strand) := by
  have hp2 : ¬(strand = "+") := hp
  have hm2 : ¬(strand = "-") := hm
  rw [gsfc_known len_chrs gs chrom L h, if_neg hb, if_neg hp2, if_neg hm2]

/-- C5 witness: a valid interval of `chr1` with the strand token
`"sideways"`. -/
theorem invalid_strand_raises_witness :
    sampleLenChrs chr1 = some 10 ∧
    ¬((0 : Int) > (10 : Nat) ∨ (5 : Int) > (10 : Nat) ∨ (0 : Int) < 0) ∧
    sidewaysStrand ≠ forwardStrand ∧
    sidewaysStrand ≠ reverseStrand ∧
    get_sequence_from_coords sampleLenChrs sampleGenomeSequence chr1 0 5
        sidewaysStrand = .error (.invalidStrand sidewaysStrand) :=
  ⟨by decide, by decide, by decide, by decide,
    invalid_strand_raises sampleLenChrs sampleGenomeSequence chr1 10
      (by decide) 0 5 (by decide) sidewaysStrand (by decide) (by decide)⟩

/-- C6. The bounds check is consulted before the strand dispatch: an invalid
interval yields the empty string for any strand token, and the strand error
can only arise when the interval passed the bounds check. -/
theorem bounds_before_strand (len_chrs : String → Option Nat)
    (gs : String → Int → Int → String → List Char)
    (chrom : String) (L : Nat) (h : len_chrs chrom = some L)
    (start stop : Int) (strand : String) :
    (start > (L : Int) ∨ stop > (L : Int) ∨ start < 0 →
      get_sequence_from_coords len_chrs gs chrom start stop strand = .ok []) ∧
    (get_sequence_from_coords len_chrs gs chrom start stop strand =
        .error (.invalidStrand strand) →
      ¬(start > (L : Int) ∨ stop > (L : Int) ∨ start < 0)) := by
  constructor
  · intro hc
    rw [gsfc_known len_chrs gs chrom L h, if_pos hc]
  · intro heq hc
    rw [gsfc_known len_chrs gs chrom L h, if_pos hc] at heq
    exact Except.noConfusion heq

/-- C6 witness: an out-of-bounds interval combined with the invalid strand
token `"sideways"` yields the empty string, not the strand error. -/
theorem bounds_before_strand_witness :
    sampleLenChrs chr1 = some 10 ∧
    (((-1 : Int) > (10 : Nat) ∨ (5 : Int) > (10 : Nat) ∨ (-1 : Int) < 0 →
      get_sequence_from_coords sampleLenChrs sampleGenomeSequence chr1 (-1) 5
        sidewaysStrand = .ok []) ∧
    (get_sequence_from_coords sampleLenChrs sampleGenomeSequence chr1 (-1) 5
        sidewaysStrand = .error (.invalidStrand sidewaysStrand) →
      ¬((-1 : Int) > (10 : Nat) ∨ (5 : Int) > (10 : Nat) ∨ (-1 : Int) < 0))) :=
  ⟨by decide,
    bounds_before_strand sampleLenChrs sampleGenomeSequence chr1 10 (by decide)
      (-1) 5 sidewaysStrand⟩

/-- C7. For a known chromosome and an in-bounds interval, the reverse-strand
fetch is the reverse complement of the forward-strand fetch of the same
interval. -/
theorem reverse_strand_is_reverse_complement (len_chrs : String → Option Nat)
    (fetch : String → Int → Int → List Char)
    (chrom : String) (L : Nat) (h : len_chrs chrom = some L)
    (start stop : Int)
    (hb : ¬(start > (L : Int) ∨ stop > (L : Int) ∨ start < 0)) :
    Genome_get_sequence_from_coords len_chrs fetch chrom start stop
        reverseStrand =
      (Genome_get_sequence_from_coords len_chrs fetch chrom start stop
          forwardStrand).map reverseComplement := by
  unfold Genome_get_sequence_from_coords
  rw [gsfc_known len_chrs _ chrom L h, gsfc_known len_chrs _ chrom L h,
    if_neg hb, if_neg hb,
    if_neg (show ¬(reverseStrand = "+") by decide),
    if_pos (show reverseStrand = "-" from rfl),
    if_pos (show forwardStrand = "+" from rfl)]
  unfold Genome_genome_sequence
  rw [if_neg (show ¬(reverseStrand = "+") by decide),
    if_pos (show forwardStrand = "+" from rfl)]
  rfl

/-- C7 witness: the interval `(0, 5)` of `chr1`. -/
theorem reverse_strand_is_reverse_complement_witness :
    sampleLenChrs chr1 = some 10 ∧
    ¬((0 : Int) > (10 : Nat) ∨ (5 : Int) > (10 : Nat) ∨ (0 : Int) < 0) ∧
    Genome_get_sequence_from_coords sampleLenChrs sampleFetch chr1 0 5
        reverseStrand =
      (Genome_get_sequence_from_coords sampleLenChrs sampleFetch chr1 0 5
          forwardStrand).map reverseComplement :=
  ⟨by decide, by decide,
    reverse_strand_is_reverse_complement sampleLenChrs sampleFetch chr1 10
      (by decide) 0 5 (by decide)⟩

/-- C8. `get_encoding` is `encode` composed with `get_sequence` for the same
arguments, inheriting its empty-result and error behavior; an invalid
interval yields the 0×4 encoding, `encode("")` is the 0×4 encoding and
`decode([])` is `""`. -/
theorem get_encoding_is_encode_of_get_sequence (len_chrs : String → Option Nat)
    (fetch : String → Int → Int → List Char)
    (chrom : String) (L : Nat) (h : len_chrs chrom = some L)
    (start stop : Int) (strand : String) :
    (Genome_get_encoding_from_coords len_chrs fetch chrom start stop strand =
      (Genome_get_sequence_from_coords len_chrs fetch chrom start stop
          strand).map (fun s => sequence_to_encoding s BASES_DICT)) ∧
    (start > (L : Int) ∨ stop > (L : Int) ∨ start < 0 →
      Genome_get_encoding_from_coords len_chrs fetch chrom start stop strand =
        .ok []) ∧
    sequence_to_encoding [] BASES_DICT = [] ∧
    encoding_to_sequence [] BASES_ARR = [] := by
  refine ⟨rfl, ?_, rfl, rfl⟩
  intro hc
  unfold Genome_get_encoding_from_coords Genome_get_sequence_from_coords
  rw [gsfc_known len_chrs _ chrom L h, if_pos hc]
  rfl

/-- C8 witness: an invalid interval of `chr1` gives the 0×4 encoding. -/
theorem get_encoding_is_encode_of_get_sequence_witness :
    sampleLenChrs chr1 = some 10 ∧
    ((Genome_get_encoding_from_coords sampleLenChrs sampleFetch chr1 20 25
        forwardStrand =
      (Genome_get_sequence_from_coords sampleLenChrs sampleFetch chr1 20 25
          forwardStrand).map (fun s => sequence_to_encoding s BASES_DICT)) ∧
    ((20 : Int) > (10 : Nat) ∨ (25 : Int) > (10 : Nat) ∨ (20 : Int) < 0 →
      Genome_get_encoding_from_coords sampleLenChrs sampleFetch chr1 20 25
          forwardStrand = .ok []) ∧
    sequence_to_encoding [] BASES_DICT = [] ∧
    encoding_to_sequence [] BASES_ARR = []) :=
  ⟨by decide,
    get_encoding_is_encode_of_get_sequence sampleLenChrs sampleFetch chr1 10
      (by decide) 20 25 forwardStrand⟩

/-- C9. For a chromosome name absent from the length table, the fetch fails
with a lookup error naming the chromosome instead of returning the empty
string; an empty-string result can only come from a chromosome present in
the table. -/
theorem unknown_chromosome_raises (len_chrs : String → Option Nat)
    (gs : String → Int → Int → String → List Char)
    (chrom : String) (start stop : Int) (strand : String)
    (h : len_chrs chrom = none) :
    get_sequence_from_coords len_chrs gs chrom start stop strand =
      .error (.keyError chrom) := by
  unfold get_sequence_from_coords
  rw [h]

/-- C9 witness: `chrX` is not in the sample table, and its fetch is the
lookup error. -/
theorem unknown_chromosome_raises_witness :
    sampleLenChrs chrX = none ∧
    get_sequence_from_coords sampleLenChrs sampleGenomeSequence chrX 0 5
        forwardStrand = .error (.keyError chrX) :=
  ⟨by decide,
    unknown_chromosome_raises sampleLenChrs sampleGenomeSequence chrX 0 5
      forwardStrand (by decide)⟩

end Proteus
